import Mathlib

/-!
Verification development for the rlm-implementation repository.

The embedding covers the two core modules:

* src/rlm/sandbox.py — class Sandbox: allow-listed builtins and import roots,
  per-instance namespace seeded at construction, output capture, truncation,
  error containment in execute.
* src/rlm/core.py — class RLM: the _completion loop (fresh history, fresh
  sandbox, depth guard, iteration budget), the response extraction helpers
  _extract_code and _extract_final_answer, and the prompt builders.

Texts are modeled as Lean String (Python str, code-point for code-point);
scanning is done over List Char.  The two regular expressions of core.py are
compiled by hand into explicit scanners that reproduce the leftmost-match,
greedy/non-greedy and backtracking behaviour of the Python re module on
these concrete patterns; every behavioural corner relevant to the theorems
below was cross-checked against the semantics of the re module.

The Python interpreter invoked by Sandbox.execute (the built-in exec) and
the external model completion call (litellm.completion) are external
collaborators: they enter the model as explicit function parameters
(PyExec and the llm argument).  The recursion hook is instrumented to also
report the number of orchestrator invocations entered in its subtree, so
that depth-termination claims can be stated; the string component is
exactly what the Python hook returns.
-/

namespace RLMSpec

/-- A single-quote character as a one-character string; used to spell the
string literals of the Python source without writing a quote character in
the Lean source. -/
def sq : String := String.singleton (Char.ofNat 39)

/-- Python whitespace as matched by the regex class backslash-s and by
str.strip on the ASCII range: space, tab, newline, carriage return,
vertical tab, form feed. -/
def isPySpace (c : Char) : Bool :=
  c == ' ' || c == '\t' || c == '\n' || c == '\r' || c == Char.ofNat 11 || c == Char.ofNat 12

/-- Python str.strip(): remove leading and trailing whitespace. -/
def strip (l : List Char) : List Char :=
  ((l.dropWhile isPySpace).reverse.dropWhile isPySpace).reverse

/-- Substring test: does pat occur contiguously inside the list? -/
def listContainsSub (pat : List Char) : List Char → Bool
  | [] => pat.isPrefixOf ([] : List Char)
  | c :: rest => pat.isPrefixOf (c :: rest) || listContainsSub pat rest

/-- Split at the first occurrence of pat: returns (before, after-pat), or
none when pat does not occur.  This is the primitive used by the manual
compilations of the non-greedy regex searches of core.py. -/
def splitFirst (pat : List Char) : List Char → Option (List Char × List Char)
  | [] => if pat.isPrefixOf ([] : List Char) then some ([], []) else none
  | c :: rest =>
    if pat.isPrefixOf (c :: rest) then some ([], (c :: rest).drop pat.length)
    else
      match splitFirst pat rest with
      | some (pre, post) => some (c :: pre, post)
      | none => none

/-- The code-fence delimiter of the extraction regexes. -/
def fence : List Char := ("```").toList

/-- Opening tag of a python-tagged fenced block. -/
def tagPython : List Char := ("```python").toList

/-- Opening tag of a repl-tagged fenced block. -/
def tagRepl : List Char := ("```repl").toList

/-- RLM._extract_code (core.py lines 170-174): the first match of the regex
  triple-backtick (python|repl) backslash-s-star (.*?) triple-backtick
with DOTALL, group(1) stripped; None when there is no match.  The scan
mirrors re.search: positions are tried left to right; at a tagged opening,
the non-greedy group ends at the first following fence occurrence (the tag
letters contain no backtick, so searching from the end of the tag is the
same as searching anywhere after the opening); when no closing fence
follows the first tag there is no closing fence after any later tag either,
so the whole search fails. -/
def extractCodeAux : List Char → Option (List Char)
  | [] => none
  | c :: rest =>
    if tagPython.isPrefixOf (c :: rest) then
      match splitFirst fence ((c :: rest).drop tagPython.length) with
      | some (pre, _) => some (strip pre)
      | none => none
    else if tagRepl.isPrefixOf (c :: rest) then
      match splitFirst fence ((c :: rest).drop tagRepl.length) with
      | some (pre, _) => some (strip pre)
      | none => none
    else extractCodeAux rest

/-- String-level wrapper of extractCodeAux; this is RLM._extract_code. -/
def extract_code (text : String) : Option String :=
  (extractCodeAux text.toList).map (fun l => String.mk l)

/-- One pass of the re.sub of RLM._extract_final_answer (core.py line 180):
remove every non-overlapping leftmost-shortest fenced region
  triple-backtick (python|repl)? backslash-s-star .*? triple-backtick
(DOTALL).  Because the optional tag letters contain no backtick, a region
runs from an opening fence to the nearest fence occurrence after it, and an
opening with no closing fence is left in place.  The first argument is
fuel; the wrapper passes the list length, which the recursion never
exhausts since every step strictly consumes input. -/
def stripFencesGo : Nat → List Char → List Char
  | _, [] => []
  | 0, l => l
  | Nat.succ n, c :: rest =>
    if fence.isPrefixOf (c :: rest) then
      match splitFirst fence ((c :: rest).drop 3) with
      | some (_, post) => stripFencesGo n post
      | none => c :: stripFencesGo n rest
    else c :: stripFencesGo n rest

/-- Fence removal at the natural fuel. -/
def stripFences (l : List Char) : List Char := stripFencesGo l.length l

/-- The final-answer marker, lower-cased (13 characters); the search of
RLM._extract_final_answer is case-insensitive. -/
def faMarker : List Char := ("final answer:").toList

/-- Tail of the final-answer regex after the colon:
backslash-s-star (.+) dollar, with MULTILINE and without DOTALL.
With the greedy-then-backtracking semantics of re: if some non-whitespace
character follows, the group runs from the first such character to its line
end; otherwise the group, if any, is a single non-newline whitespace
character and strips to the empty string; when only newlines (or nothing)
follow, there is no match.  The returned group is already stripped, as in
group(1).strip(). -/
def tailMatch (l : List Char) : Option (List Char) :=
  let q := l.dropWhile isPySpace
  if q.isEmpty then
    if l.all (fun c => c == '\n') then none else some []
  else some (strip (q.takeWhile (fun c => !(c == '\n'))))

/-- Attempt of the final-answer regex at one line start: caret
backslash-s-star then the case-insensitive marker then the tail.  The
leading backslash-s-star is greedy and may cross newlines; the marker, if
the attempt is to succeed, must sit at the first non-whitespace character
reachable from this line start. -/
def faTry (l : List Char) : Option (List Char) :=
  let q := l.dropWhile isPySpace
  if (q.take faMarker.length).map Char.toLower = faMarker then
    tailMatch (q.drop faMarker.length)
  else none

/-- re.search of the MULTILINE final-answer regex: attempts are anchored at
line starts (position 0 or just after a newline), tried left to right.
Fuel is the list length; each skip to the next line start strictly consumes
input. -/
def faScanGo : Nat → List Char → Option (List Char)
  | _, [] => none
  | 0, _ => none
  | Nat.succ n, l =>
    match faTry l with
    | some g => some g
    | none =>
      match splitFirst (['\n'] : List Char) l with
      | some (_, post) => faScanGo n post
      | none => none

/-- Line-start scan at the natural fuel. -/
def faScan (l : List Char) : Option (List Char) := faScanGo l.length l

/-- RLM._extract_final_answer (core.py lines 176-182): strip fenced code
regions, then search line by line, case-insensitively, for a line beginning
with optional whitespace then the marker; return the stripped remainder, or
None. -/
def extract_final_answer (text : String) : Option String :=
  (faScan (stripFences text.toList)).map (fun l => String.mk l)

/-- Sandbox._ALLOWED_IMPORT_ROOTS (sandbox.py lines 24-34), written in the
sorted order in which the blocked-import message renders it. -/
def ALLOWED_IMPORT_ROOTS : List String :=
  ["collections", "decimal", "fractions", "functools", "itertools",
   "math", "random", "re", "statistics"]

/-- Sandbox._SAFE_BUILTINS (sandbox.py lines 36-67). -/
def SAFE_BUILTINS : List String :=
  ["abs", "all", "any", "bool", "dict", "enumerate", "Exception", "filter",
   "float", "int", "isinstance", "len", "list", "map", "max", "min", "pow",
   "print", "range", "repr", "reversed", "round", "set", "sorted", "str",
   "sum", "tuple", "type", "ValueError", "zip"]

/-- Values bound in a sandbox namespace.  The builtins dictionary is
tracked by its key set; the injected recursion hook is a function from a
sub-task prompt to the answer string of the child invocation, instrumented
with the number of orchestrator invocations entered in the subtree of that
call; the context payload is a plain string. -/
inductive PyVal where
  | table (keys : List String)
  | pyfun (f : String → String × Nat)
  | pstr (s : String)

/-- A Python dictionary from identifiers to values, as an association
list. -/
abbrev Ns := List (String × PyVal)

/-- Dictionary lookup. -/
def nsLookup : Ns → String → Option PyVal
  | [], _ => none
  | (k, v) :: rest, key => if k = key then some v else nsLookup rest key

/-- Single-key dict update: overwrite in place, or append a new key. -/
def dictSet : Ns → String → PyVal → Ns
  | [], k, v => [(k, v)]
  | (k0, v0) :: rest, k, v =>
    if k0 = k then (k0, v) :: rest else (k0, v0) :: dictSet rest k v

/-- dict.update: fold dictSet over the new bindings. -/
def dictUpdate (d : Ns) (extras : Ns) : Ns :=
  extras.foldl (fun acc kv => dictSet acc kv.1 kv.2) d

/-- Keys of the dictionary built by Sandbox._build_builtins (sandbox.py
lines 93-96): the safe builtins plus the restricted import hook. -/
def build_builtins_keys : List String := SAFE_BUILTINS ++ ["__import__"]

/-- One Sandbox instance (sandbox.py): the output budget and the private
persistent namespace. -/
structure Sandbox where
  maxOutputChars : Nat
  nspace : Ns

/-- Sandbox.__init__ (sandbox.py lines 69-82): the namespace starts as the
single __builtins__ binding and is then updated with the caller-supplied
extra globals. -/
def Sandbox.init (extraGlobals : Ns) (maxOutputChars : Nat) : Sandbox :=
  ⟨maxOutputChars, dictUpdate [("__builtins__", PyVal.table build_builtins_keys)] extraGlobals⟩

/-- The top-level segment of a dotted module name, as computed by
name.split(".")[0] in Sandbox._safe_import. -/
def importRoot (name : String) : String :=
  String.mk (name.toList.takeWhile (fun c => !(c == '.')))

/-- The rendering of sorted(_ALLOWED_IMPORT_ROOTS) inside the blocked-import
message. -/
def sortedRootsRepr : String :=
  "[" ++ String.intercalate ", " (ALLOWED_IMPORT_ROOTS.map (fun r => sq ++ r ++ sq)) ++ "]"

/-- The ImportError message raised by Sandbox._safe_import for a blocked
module. -/
def blocked_import_message (name : String) : String :=
  "Import " ++ sq ++ name ++ sq ++ " is blocked in Sandbox. Allowed roots: " ++ sortedRootsRepr

/-- Outcome of Sandbox._safe_import: either the descriptive ImportError, or
delegation to builtins.__import__. -/
inductive ImportResult where
  | blocked (msg : String)
  | delegated (name : String)

/-- Sandbox._safe_import (sandbox.py lines 84-91). -/
def safe_import (name : String) : ImportResult :=
  if importRoot name ∈ ALLOWED_IMPORT_ROOTS then ImportResult.delegated name
  else ImportResult.blocked (blocked_import_message name)

/-- Sandbox._truncate_output (sandbox.py lines 98-102): output at most the
budget is returned as is; longer output is cut to the first
maxOutputChars characters and the fixed suffix (a newline followed by the
truncation marker) is appended. -/
def truncate_output (maxOutputChars : Nat) (output : String) : String :=
  if output.length ≤ maxOutputChars then output
  else String.mk (output.toList.take maxOutputChars) ++ "\n...[output truncated]"

/-- Outcome of running exec(code, namespace) with stdout and stderr
redirected into one buffer: either normal completion with the captured
buffer content, or an exception (every error raised by executed code,
a blocked import included) with the buffer content at raise time and the
traceback that traceback.print_exc then renders into the buffer. -/
inductive ExecOutcome where
  | normal (captured : String)
  | raised (captured : String) (tb : String)

/-- The external Python interpreter, as a parameter: given the script text
and the current namespace it yields the exec outcome, the updated
namespace, and the number of orchestrator invocations entered by calls to
the recursion hook during this execution (honest interpreters sum the
counts reported by the hooks they call). -/
abbrev PyExec := String → Ns → ExecOutcome × Ns × Nat

/-- Sandbox.execute (sandbox.py lines 104-125), parameterized by the
interpreter: on normal completion an empty buffer becomes the no-output
marker and a non-empty buffer is truncated; on any raised error the
rendered traceback is appended to the buffer and the result truncated.
Every outcome returns a string — nothing propagates past execute. -/
def Sandbox.executeWith (pyExec : PyExec) (sb : Sandbox) (code : String) :
    String × Sandbox × Nat :=
  match pyExec code sb.nspace with
  | (ExecOutcome.normal cap, ns2, spawned) =>
    (if cap = "" then "[No output]" else truncate_output sb.maxOutputChars cap,
     ⟨sb.maxOutputChars, ns2⟩, spawned)
  | (ExecOutcome.raised cap tb, ns2, spawned) =>
    (truncate_output sb.maxOutputChars (cap ++ tb), ⟨sb.maxOutputChars, ns2⟩, spawned)

/-- RLM._system_prompt (core.py lines 196-213). -/
def system_prompt : String :=
  "You are a Recursive Language Model (RLM).\n" ++
  "You solve tasks by writing and executing Python code.\n" ++
  "You can recursively delegate with `rlm_query(subtask)`.\n\n" ++
  "Rules:\n" ++
  "1. Wrap code in ```python ... ``` or ```repl ... ``` blocks. The output will be\n" ++
  "   returned to you as an " ++ sq ++ "Observation" ++ sq ++ ".\n" ++
  "2. You have a helper: `rlm_query(prompt)` — it spawns a NEW\n" ++
  "   RLM agent with a FRESH context to solve a sub-task and\n" ++
  "   returns the answer as a string.  Use it to decompose\n" ++
  "   complex problems!\n" ++
  "3. The task payload is in REPL variable `context` and may not appear in chat.\n" ++
  "4. Use `print()` to see results.\n" ++
  "5. When you have the final answer, output it on its own line\n" ++
  "   starting with " ++ sq ++ "Final Answer:" ++ sq ++ ".\n"

/-- The fixed generic instruction returned by RLM._direct_prompt for every
non-root task, and for root tasks with no root prompt (core.py lines
190-194). -/
def generic_instruction : String :=
  "Solve the task using Python execution.\n" ++
  "The full task payload is available only in the REPL variable `context`.\n" ++
  "Read `context`, compute what is needed, and end with `Final Answer:`."

/-- RLM._direct_prompt (core.py lines 184-194); the first argument is the
constructor-supplied self.root_prompt, the third the call-site root_prompt
override. -/
def direct_prompt (selfRootPrompt : Option String) (depth : Nat) (rootPrompt : Option String) : String :=
  if depth = 1 then
    match rootPrompt with
    | some rp => rp
    | none =>
      match selfRootPrompt with
      | some rp => rp
      | none => generic_instruction
  else generic_instruction

/-- The depth-limit sentinel string (core.py line 66). -/
def depth_sentinel (maxDepth : Nat) : String :=
  "⚠️  Max recursion depth (" ++ toString maxDepth ++ ") reached."

/-- The iteration-exhaustion sentinel string (core.py line 166). -/
def iteration_sentinel : String :=
  "⚠️  Max iterations reached without a Final Answer."

/-- The corrective nudge appended when a response has neither a code block
nor a final answer (core.py lines 155-164). -/
def nudge_message : String :=
  "I did not see any code or a " ++ sq ++ "Final Answer:" ++ sq ++ ". " ++
  "Use ```python``` (or ```repl```) code when needed, and " ++
  "read task details from the REPL variable `context`."

/-- Message roles of the conversation history. -/
inductive Role where
  | system
  | user
  | assistant

/-- One history message. -/
structure Message where
  role : Role
  content : String

/-- Configuration fields of the RLM constructor that the core loop reads. -/
structure RLMConfig where
  maxIterations : Nat
  maxDepth : Nat
  rootPrompt : Option String

/-- Result of one invocation of the iteration loop: the returned answer, the
number of model-completion calls made by this loop itself, the number of
child orchestrator invocations entered during sandbox executions of this
loop, and the final local history. -/
structure LoopResult where
  answer : String
  llmCalls : Nat
  spawned : Nat
  history : List Message

/-- Result of one _completion invocation: the returned string, the number
of model calls made at this level, whether a sandbox was constructed, the
total number of orchestrator invocations entered in this subtree (this one
included when the depth guard passes), and the final local history. -/
structure RunResult where
  answer : String
  llmCalls : Nat
  sandboxBuilt : Bool
  invocations : Nat
  history : List Message

/-- The fresh conversation history built at the start of _completion
(core.py lines 81-84). -/
def initial_history (cfg : RLMConfig) (depth : Nat) (rootPrompt : Option String) : List Message :=
  [⟨Role.system, system_prompt⟩, ⟨Role.user, direct_prompt cfg.rootPrompt depth rootPrompt⟩]

/-- The fresh Sandbox built at the start of _completion (core.py line 100):
extra globals are exactly the recursion hook and the context payload;
max_output_chars is the Sandbox default 8000. -/
def freshInvocationSandbox (hook : String → String × Nat) (payload : String) : Sandbox :=
  Sandbox.init [("rlm_query", PyVal.pyfun hook), ("context", PyVal.pstr payload)] 8000

/-- The iteration loop of RLM._completion (core.py lines 102-166): call the
model, append the reply, return a final answer immediately when one is
extracted, otherwise execute the first code block (when present and
non-empty — the Python truthiness test) and append the observation, or
append the corrective nudge; when the budget runs out, return the
iteration sentinel. -/
def runLoop (llm : List Message → String) (pyExec : PyExec) :
    Nat → List Message → Sandbox → LoopResult
  | 0, hist, _ => ⟨iteration_sentinel, 0, 0, hist⟩
  | Nat.succ n, hist, sb =>
    let content := llm hist
    let hist1 := hist ++ [⟨Role.assistant, content⟩]
    match extract_final_answer content with
    | some a => ⟨a, 1, 0, hist1⟩
    | none =>
      match extract_code content with
      | some code =>
        if code = "" then
          let r := runLoop llm pyExec n (hist1 ++ [⟨Role.user, nudge_message⟩]) sb
          ⟨r.answer, r.llmCalls + 1, r.spawned, r.history⟩
        else
          let e := Sandbox.executeWith pyExec sb code
          let r := runLoop llm pyExec n (hist1 ++ [⟨Role.user, "Observation:\n" ++ e.1⟩]) e.2.1
          ⟨r.answer, r.llmCalls + 1, r.spawned + e.2.2, r.history⟩
      | none =>
        let r := runLoop llm pyExec n (hist1 ++ [⟨Role.user, nudge_message⟩]) sb
        ⟨r.answer, r.llmCalls + 1, r.spawned, r.history⟩

/-- RLM._completion (core.py lines 64-166), parameterized by the external
model and interpreter.  The depth guard returns the sentinel before
anything is built; otherwise a fresh history and a fresh sandbox are
created, the recursion hook closes over depth + 1, and the loop runs.
Fuel bounds the recursion depth of the embedding; the guard makes every
call with fuel + depth > maxDepth + 1 independent of the fuel, and all
theorems use fuel = maxDepth + 1 at depth 1 (see completionGo_fuel). -/
def completionGo (cfg : RLMConfig) (llm : List Message → String) (pyExec : PyExec) :
    Nat → String → Nat → Option String → RunResult
  | fuel, prompt, depth, rootPrompt =>
    if cfg.maxDepth < depth then
      ⟨depth_sentinel cfg.maxDepth, 0, false, 0, []⟩
    else
      match fuel with
      | 0 => ⟨"", 0, false, 0, []⟩
      | Nat.succ f =>
        let hook : String → String × Nat := fun childPrompt =>
          let r := completionGo cfg llm pyExec f childPrompt (depth + 1) none
          (r.answer, r.invocations)
        let sb := freshInvocationSandbox hook prompt
        let r := runLoop llm pyExec cfg.maxIterations (initial_history cfg depth rootPrompt) sb
        ⟨r.answer, r.llmCalls, true, r.spawned + 1, r.history⟩

/-- RLM.completion (core.py lines 55-62): solve prompt at depth 1. -/
def completionTop (cfg : RLMConfig) (llm : List Message → String) (pyExec : PyExec)
    (prompt : String) (rootPrompt : Option String) : RunResult :=
  completionGo cfg llm pyExec (cfg.maxDepth + 1) prompt 1 rootPrompt

/-- A model oracle that always answers with a code block that calls the
recursion hook on the context payload — the unconditional-delegation
script of the depth-termination property. -/
def scenario_response : String := "```python\nprint(rlm_query(context))\n```"

/-- The always-delegate model oracle. -/
def scenario_llm : List Message → String := fun _ => scenario_response

/-- The interpreter behaviour of the unconditional-delegation script: look
up the recursion hook in the namespace, call it once, print its answer. -/
def scenario_pyExec : PyExec := fun _ ns =>
  match nsLookup ns ("rlm_query") with
  | some (PyVal.pyfun h) =>
    let p := h ("subtask")
    (ExecOutcome.normal (p.1 ++ "\n"), ns, p.2)
  | _ => (ExecOutcome.normal "", ns, 0)

/-- Configuration for the depth-termination scenario: one iteration per
level, maximum depth d. -/
def scenario_cfg (d : Nat) : RLMConfig := ⟨1, d, none⟩

/-- A model oracle that echoes the context payload through a print call —
used to exhibit an observation that carries the payload into history. -/
def echo_llm : List Message → String := fun _ => "```python\nprint(context)\n```"

/-- The interpreter behaviour of print(context): write the payload and a
newline to the buffer. -/
def print_context_pyExec : PyExec := fun _ ns =>
  match nsLookup ns ("context") with
  | some (PyVal.pstr s) => (ExecOutcome.normal (s ++ "\n"), ns, 0)
  | _ => (ExecOutcome.normal "", ns, 0)

/-- A trivial model oracle. -/
def trivial_llm : List Message → String := fun _ => ""

/-- A trivial interpreter: no output, no namespace change, no children. -/
def trivial_pyExec : PyExec := fun _ ns => (ExecOutcome.normal "", ns, 0)

/-- The backtick character, spelled by code point. -/
def btick : Char := Char.ofNat 96

/-- A model oracle that always answers with a final-answer line carrying
only trailing whitespace. -/
def llm_ws : List Message → String := fun _ => "Final Answer:   "

/-! ### Helper lemmas about the scanning primitives -/

theorem splitFirst_eq_append {pat : List Char} :
    ∀ {l pre post : List Char}, splitFirst pat l = some (pre, post) → l = pre ++ (pat ++ post) := by
  intro l
  induction l with
  | nil =>
    intro pre post h
    rw [splitFirst] at h
    by_cases hp : pat.isPrefixOf ([] : List Char)
    · rw [if_pos hp] at h
      have hpat : pat = [] := by
        cases pat with
        | nil => rfl
        | cons a as => simp [List.isPrefixOf] at hp
      subst hpat
      simp only [Option.some.injEq, Prod.mk.injEq] at h
      obtain ⟨h1, h2⟩ := h
      subst h1; subst h2; rfl
    · rw [if_neg hp] at h
      exact absurd h (by simp)
  | cons c rest ih =>
    intro pre post h
    rw [splitFirst] at h
    by_cases hp : pat.isPrefixOf (c :: rest)
    · rw [if_pos hp] at h
      simp only [Option.some.injEq, Prod.mk.injEq] at h
      obtain ⟨h1, h2⟩ := h
      subst h1; subst h2
      obtain ⟨t, ht⟩ := List.isPrefixOf_iff_prefix.mp hp
      have hd : (c :: rest).drop pat.length = t := by
        rw [← ht, List.drop_left]
      rw [hd, List.nil_append, ht]
    · rw [if_neg hp] at h
      cases hsf : splitFirst pat rest with
      | none => rw [hsf] at h; simp at h
      | some pp =>
        obtain ⟨pre2, post2⟩ := pp
        rw [hsf] at h
        simp only [Option.some.injEq, Prod.mk.injEq] at h
        obtain ⟨h1, h2⟩ := h
        subst h1; subst h2
        have := ih hsf
        rw [List.cons_append, ← this]

theorem listContainsSub_of_isPrefixOf {pat l : List Char} (h : pat.isPrefixOf l = true) :
    listContainsSub pat l = true := by
  cases l with
  | nil => simpa [listContainsSub] using h
  | cons c rest => simp [listContainsSub, h]

theorem listContainsSub_cons {pat l : List Char} (c : Char) (h : listContainsSub pat l = true) :
    listContainsSub pat (c :: l) = true := by
  simp [listContainsSub, h]

theorem listContainsSub_append_left {pat l₂ : List Char} (l₁ : List Char)
    (h : listContainsSub pat l₂ = true) : listContainsSub pat (l₁ ++ l₂) = true := by
  induction l₁ with
  | nil => simpa using h
  | cons c rest ih => simpa using listContainsSub_cons c ih

theorem listContainsSub_infix {pat l₁ l₂ : List Char} :
    listContainsSub pat (l₁ ++ (pat ++ l₂)) = true :=
  listContainsSub_append_left l₁
    (listContainsSub_of_isPrefixOf (List.isPrefixOf_iff_prefix.mpr ⟨l₂, rfl⟩))

theorem toList_append (s t : String) : (s ++ t).toList = s.toList ++ t.toList := rfl

/-! ### C4 — error containment of Sandbox.execute -/

/-- C4: for every script, Sandbox.execute returns a string and never
propagates an error: on normal completion with an empty buffer it returns
the no-output marker, with a non-empty buffer the truncated buffer, and on
any raised error (blocked imports included) the truncated buffer with the
rendered traceback appended — never an exception.  Totality is the type of
executeWith; the three conjuncts are the three outcome shapes. -/
theorem C4_execute_never_raises :
    (∀ (pyExec : PyExec) (sb : Sandbox) (code : String) (ns2 : Ns) (k : Nat),
        pyExec code sb.nspace = (ExecOutcome.normal "", ns2, k) →
        (Sandbox.executeWith pyExec sb code).1 = "[No output]") ∧
    (∀ (pyExec : PyExec) (sb : Sandbox) (code cap : String) (ns2 : Ns) (k : Nat),
        pyExec code sb.nspace = (ExecOutcome.normal cap, ns2, k) → ¬ cap = "" →
        (Sandbox.executeWith pyExec sb code).1 = truncate_output sb.maxOutputChars cap) ∧
    (∀ (pyExec : PyExec) (sb : Sandbox) (code cap tb : String) (ns2 : Ns) (k : Nat),
        pyExec code sb.nspace = (ExecOutcome.raised cap tb, ns2, k) →
        (Sandbox.executeWith pyExec sb code).1 = truncate_output sb.maxOutputChars (cap ++ tb)) := by
  refine ⟨?_, ?_, ?_⟩
  · intro pyExec sb code ns2 k h
    simp [Sandbox.executeWith, h]
  · intro pyExec sb code cap ns2 k h hne
    simp [Sandbox.executeWith, h, hne]
  · intro pyExec sb code cap tb ns2 k h
    simp [Sandbox.executeWith, h]

/-- An interpreter with an empty normal outcome. -/
def pe_empty : PyExec := fun _ ns => (ExecOutcome.normal "", ns, 0)

/-- An interpreter producing six characters of output. -/
def pe_out : PyExec := fun _ ns => (ExecOutcome.normal ("abcdef"), ns, 0)

/-- An interpreter whose execution raises with a rendered traceback. -/
def pe_err : PyExec := fun _ ns => (ExecOutcome.raised ("buf") ("TB"), ns, 0)

/-- Witness for C4 at concrete interpreters and sandboxes. -/
theorem C4_witness :
    (Sandbox.executeWith pe_empty ⟨100, []⟩ ("x")).1 = "[No output]" ∧
    (Sandbox.executeWith pe_out ⟨100, []⟩ ("x")).1 = truncate_output 100 ("abcdef") ∧
    (Sandbox.executeWith pe_err ⟨100, []⟩ ("x")).1 = truncate_output 100 ("buf" ++ "TB") :=
  ⟨C4_execute_never_raises.1 pe_empty ⟨100, []⟩ "x" [] 0 rfl,
   C4_execute_never_raises.2.1 pe_out ⟨100, []⟩ "x" "abcdef" [] 0 rfl (by decide),
   C4_execute_never_raises.2.2 pe_err ⟨100, []⟩ "x" "buf" "TB" [] 0 rfl⟩

/-! ### C5 — the import allow-list -/

/-- C5: an import is answered with the descriptive capability error exactly
when the top-level segment of the requested module name is outside the
allowed-roots set; an allowed root is delegated to the normal import
mechanism; and an error raised inside execution (a blocked import raises
ImportError) surfaces from execute as observation text, never as an
exception. -/
theorem C5_import_allowlist :
    (∀ name : String,
        (∃ msg, safe_import name = ImportResult.blocked msg) ↔
          ¬ importRoot name ∈ ALLOWED_IMPORT_ROOTS) ∧
    (∀ name : String, importRoot name ∈ ALLOWED_IMPORT_ROOTS →
        safe_import name = ImportResult.delegated name) ∧
    (∀ name : String, ¬ importRoot name ∈ ALLOWED_IMPORT_ROOTS →
        safe_import name = ImportResult.blocked (blocked_import_message name) ∧
        listContainsSub ("blocked").toList (blocked_import_message name).toList = true ∧
        listContainsSub name.toList (blocked_import_message name).toList = true) ∧
    (∀ (pyExec : PyExec) (sb : Sandbox) (code cap tb : String) (ns2 : Ns) (k : Nat),
        pyExec code sb.nspace = (ExecOutcome.raised cap tb, ns2, k) →
        (Sandbox.executeWith pyExec sb code).1 = truncate_output sb.maxOutputChars (cap ++ tb)) := by
  refine ⟨?_, ?_, ?_, ?_⟩
  · intro name
    constructor
    · rintro ⟨msg, hmsg⟩ hmem
      rw [safe_import, if_pos hmem] at hmsg
      exact ImportResult.noConfusion hmsg
    · intro hmem
      exact ⟨blocked_import_message name, by rw [safe_import, if_neg hmem]⟩
  · intro name hmem
    rw [safe_import, if_pos hmem]
  · intro name hmem
    refine ⟨by rw [safe_import, if_neg hmem], ?_, ?_⟩
    · rw [blocked_import_message]
      simp only [toList_append, List.append_assoc]
      refine listContainsSub_append_left _ ?_
      refine listContainsSub_append_left _ ?_
      refine listContainsSub_append_left _ ?_
      refine listContainsSub_append_left _ ?_
      decide
    · rw [blocked_import_message]
      simp only [toList_append, List.append_assoc]
      refine listContainsSub_append_left _ ?_
      refine listContainsSub_append_left _ ?_
      exact listContainsSub_of_isPrefixOf (List.isPrefixOf_iff_prefix.mpr ⟨_, rfl⟩)
  · intro pyExec sb code cap tb ns2 k h
    simp [Sandbox.executeWith, h]

/-- Witness for C5: the module os is blocked (its root is outside the
allowed set), the module math is delegated. -/
theorem C5_witness :
    safe_import ("os") = ImportResult.blocked (blocked_import_message ("os")) ∧
    listContainsSub ("blocked").toList (blocked_import_message ("os")).toList = true ∧
    safe_import ("math") = ImportResult.delegated ("math") ∧
    (Sandbox.executeWith pe_err ⟨100, []⟩ ("import os")).1 = truncate_output 100 ("buf" ++ "TB") :=
  ⟨(C5_import_allowlist.2.2.1 "os" (by decide)).1,
   (C5_import_allowlist.2.2.1 "os" (by decide)).2.1,
   C5_import_allowlist.2.1 "math" (by decide),
   C5_import_allowlist.2.2.2 pe_err ⟨100, []⟩ "import os" "buf" "TB" [] 0 rfl⟩

/-! ### C7 — truncation -/

/-- C7 counterexample: with an output budget of 3 and captured output
abcdef, execute returns the first three characters, then a newline, then
the truncation marker — not exactly the three characters followed by the
marker, as the claim states. -/
theorem C7_counterexample :
    (Sandbox.executeWith pe_out ⟨3, []⟩ ("x")).1 = "abc\n...[output truncated]" ∧
    ¬ (Sandbox.executeWith pe_out ⟨3, []⟩ ("x")).1 = "abc...[output truncated]" := by
  constructor
  · rfl
  · decide

/-- C7 amended: oversized captured output is returned as exactly the first
maxOutputChars characters followed by a newline and the fixed truncation
marker; output within the budget passes through the truncation step
unmodified; and execute applies exactly this truncation to any non-empty
normally captured buffer. -/
theorem C7_truncation :
    (∀ (mo : Nat) (out : String), out.length ≤ mo → truncate_output mo out = out) ∧
    (∀ (mo : Nat) (out : String), mo < out.length →
        truncate_output mo out = String.mk (out.toList.take mo) ++ "\n...[output truncated]") ∧
    (∀ (pyExec : PyExec) (sb : Sandbox) (code cap : String) (ns2 : Ns) (k : Nat),
        pyExec code sb.nspace = (ExecOutcome.normal cap, ns2, k) → ¬ cap = "" →
        (Sandbox.executeWith pyExec sb code).1 = truncate_output sb.maxOutputChars cap) := by
  refine ⟨?_, ?_, ?_⟩
  · intro mo out h
    rw [truncate_output, if_pos h]
  · intro mo out h
    rw [truncate_output, if_neg (by omega)]
  · intro pyExec sb code cap ns2 k h hne
    simp [Sandbox.executeWith, h, hne]

/-- Witness for C7 at concrete budgets and outputs. -/
theorem C7_witness :
    truncate_output 100 ("abcdef") = "abcdef" ∧
    truncate_output 3 ("abcdef") = String.mk (("abcdef").toList.take 3) ++ "\n...[output truncated]" ∧
    (Sandbox.executeWith pe_out ⟨3, []⟩ ("x")).1 = truncate_output 3 ("abcdef") :=
  ⟨C7_truncation.1 100 "abcdef" (by decide),
   C7_truncation.2.1 3 "abcdef" (by decide),
   C7_truncation.2.2 pe_out ⟨3, []⟩ "x" "abcdef" [] 0 rfl (by decide)⟩

/-! ### Namespace lemmas for the isolation claim -/

theorem nsLookup_dictSet_ne {k k0 : String} (d : Ns) (v : PyVal) (h : ¬ k = k0) :
    nsLookup (dictSet d k0 v) k = nsLookup d k := by
  induction d with
  | nil =>
    have : ¬ k0 = k := fun hh => h hh.symm
    simp [dictSet, nsLookup, this]
  | cons p rest ih =>
    obtain ⟨k1, v1⟩ := p
    by_cases h1 : k1 = k0
    · subst h1
      have : ¬ k1 = k := fun hh => h hh.symm
      simp [dictSet, nsLookup, this]
    · simp only [dictSet, if_neg h1]
      by_cases h2 : k1 = k
      · simp [nsLookup, h2]
      · simp [nsLookup, h2, ih]

theorem nsLookup_dictUpdate_not_mem :
    ∀ (extras : Ns) (d : Ns) (k : String), ¬ k ∈ extras.map Prod.fst →
      nsLookup (dictUpdate d extras) k = nsLookup d k := by
  intro extras
  induction extras with
  | nil => intro d k _; rfl
  | cons p rest ih =>
    intro d k hk
    obtain ⟨k0, v0⟩ := p
    simp only [List.map_cons, List.mem_cons, not_or] at hk
    obtain ⟨hne, hrest⟩ := hk
    have hstep : dictUpdate d ((k0, v0) :: rest) = dictUpdate (dictSet d k0 v0) rest := rfl
    rw [hstep, ih (dictSet d k0 v0) k hrest, nsLookup_dictSet_ne d v0 hne]

/-! ### C1 — fresh history and fresh namespace on every invocation -/

/-- C1: the sandbox built for an invocation seeds its namespace with
exactly the builtins table, the recursion hook and the context payload
(first conjunct, the намespace is literally that three-entry dictionary);
any other name — in particular any name a parent bound during its own
execution — resolves to nothing in a freshly built child sandbox, which is
the name-resolution failure of the isolation property (second conjunct);
a freshly constructed Sandbox resolves only its seeded keys, whatever the
injected bindings are (third conjunct); and the conversation history of an
invocation starts as exactly the fixed system message and the direct
prompt (fourth conjunct).  Freshness is by construction: the child
namespace is built from the seeds alone, with no reference to any parent
namespace. -/
theorem C1_fresh_sandbox_isolation :
    (∀ (hook : String → String × Nat) (payload : String),
        (freshInvocationSandbox hook payload).nspace =
          [("__builtins__", PyVal.table build_builtins_keys),
           ("rlm_query", PyVal.pyfun hook),
           ("context", PyVal.pstr payload)]) ∧
    (∀ (hook : String → String × Nat) (payload : String) (X : String),
        ¬ X = "__builtins__" → ¬ X = "rlm_query" → ¬ X = "context" →
        nsLookup (freshInvocationSandbox hook payload).nspace X = none) ∧
    (∀ (extras : Ns) (mo : Nat) (k : String),
        ¬ k ∈ extras.map Prod.fst → ¬ k = "__builtins__" →
        nsLookup (Sandbox.init extras mo).nspace k = none) ∧
    (∀ (cfg : RLMConfig) (depth : Nat) (rp : Option String),
        initial_history cfg depth rp =
          [⟨Role.system, system_prompt⟩, ⟨Role.user, direct_prompt cfg.rootPrompt depth rp⟩]) := by
  refine ⟨?_, ?_, ?_, ?_⟩
  · intro hook payload
    rfl
  · intro hook payload X h1 h2 h3
    have hns : (freshInvocationSandbox hook payload).nspace =
        [("__builtins__", PyVal.table build_builtins_keys),
         ("rlm_query", PyVal.pyfun hook),
         ("context", PyVal.pstr payload)] := rfl
    rw [hns]
    simp only [nsLookup]
    rw [if_neg (fun h => h1 h.symm), if_neg (fun h => h2 h.symm), if_neg (fun h => h3 h.symm)]
  · intro extras mo k hk hkb
    have hns : (Sandbox.init extras mo).nspace =
        dictUpdate [("__builtins__", PyVal.table build_builtins_keys)] extras := rfl
    rw [hns, nsLookup_dictUpdate_not_mem extras _ k hk]
    simp only [nsLookup]
    rw [if_neg (fun h => hkb h.symm)]
  · intro cfg depth rp
    rfl

/-- Witness for C1: a name bound only in a parent namespace resolves to
nothing in a fresh child sandbox. -/
theorem C1_witness :
    nsLookup (freshInvocationSandbox (fun s => (s, 0)) ("payload")).nspace ("SECRET_CODE") = none :=
  C1_fresh_sandbox_isolation.2.1 (fun s => (s, 0)) ("payload") ("SECRET_CODE")
    (by decide) (by decide) (by decide)

/-! ### C9 — code-block extraction -/

/-- C9: the code extractor scans left to right and skips every position
that opens no python- or repl-tagged fence (first conjunct — only the first
tagged block can be returned); at the first tagged opening it returns the
interior up to the first closing fence, trimmed, with everything after the
closing fence — any subsequent blocks included — ignored (second
conjunct); when no tagged opening occurs at all it returns none (third
conjunct); and the string-level extractor is exactly this scan (fourth
conjunct). -/
theorem C9_extract_code_first_block :
    (∀ (c : Char) (rest : List Char),
        tagPython.isPrefixOf (c :: rest) = false → tagRepl.isPrefixOf (c :: rest) = false →
        extractCodeAux (c :: rest) = extractCodeAux rest) ∧
    (∀ rest mid post : List Char, splitFirst fence rest = some (mid, post) →
        extract_code (String.mk (tagPython ++ rest)) = some (String.mk (strip mid)) ∧
        extract_code (String.mk (tagRepl ++ rest)) = some (String.mk (strip mid))) ∧
    (∀ l : List Char, listContainsSub tagPython l = false → listContainsSub tagRepl l = false →
        extractCodeAux l = none) ∧
    (∀ text : String, extract_code text = (extractCodeAux text.toList).map (fun l => String.mk l)) := by
  refine ⟨?_, ?_, ?_, ?_⟩
  · intro c rest h1 h2
    simp [extractCodeAux, h1, h2]
  · intro rest mid post hsf
    constructor
    · have hpre : tagPython.isPrefixOf (tagPython ++ rest) = true :=
        List.isPrefixOf_iff_prefix.mpr ⟨rest, rfl⟩
      have hdrop : (tagPython ++ rest).drop tagPython.length = rest := List.drop_left _ _
      have hlist : extractCodeAux (tagPython ++ rest) = some (strip mid) := by
        rw [show (tagPython ++ rest) = '`' :: ('`' :: ('`' :: ('p' :: ('y' :: ('t' :: ('h' :: ('o' :: ('n' :: rest))))))))
            from rfl] at hpre hdrop ⊢
        rw [extractCodeAux, if_pos hpre, hdrop, hsf]
      rw [extract_code, show (String.mk (tagPython ++ rest)).toList = tagPython ++ rest from rfl,
        hlist]
      rfl
    · have hpy : tagPython.isPrefixOf (tagRepl ++ rest) = false := rfl
      have hpre : tagRepl.isPrefixOf (tagRepl ++ rest) = true :=
        List.isPrefixOf_iff_prefix.mpr ⟨rest, rfl⟩
      have hdrop : (tagRepl ++ rest).drop tagRepl.length = rest := List.drop_left _ _
      have hlist : extractCodeAux (tagRepl ++ rest) = some (strip mid) := by
        rw [show (tagRepl ++ rest) = '`' :: ('`' :: ('`' :: ('r' :: ('e' :: ('p' :: ('l' :: rest))))))
            from rfl] at hpy hpre hdrop ⊢
        rw [extractCodeAux, if_neg (by simp [hpy]), if_pos hpre, hdrop, hsf]
      rw [extract_code, show (String.mk (tagRepl ++ rest)).toList = tagRepl ++ rest from rfl,
        hlist]
      rfl
  · intro l
    induction l with
    | nil => intro _ _; rfl
    | cons c rest ih =>
      intro h1 h2
      rw [listContainsSub, Bool.or_eq_false_iff] at h1 h2
      rw [extractCodeAux, if_neg (by simp [h1.1]), if_neg (by simp [h2.1])]
      exact ih h1.2 h2.2
  · intro text
    rfl

/-- Witness for C9: a response with a leading untagged fence, a first
python block and a trailing repl block extracts the first python interior,
trimmed. -/
theorem C9_witness :
    extract_code (String.mk (tagPython ++ (" y ```").toList ++ ("```repl z ```").toList)) =
      some (String.mk (strip ((" y ").toList))) :=
  (C9_extract_code_first_block.2.1 ((" y ```").toList ++ ("```repl z ```").toList)
    (" y ").toList (("```repl z ```").toList) (by decide)).1

/-! ### Lemmas about the final-answer scan -/

theorem faTry_some_contains {l g : List Char} (h : faTry l = some g) :
    listContainsSub faMarker (l.map Char.toLower) = true := by
  simp only [faTry] at h
  by_cases hc : ((l.dropWhile isPySpace).take faMarker.length).map Char.toLower = faMarker
  · have hsuf : l.dropWhile isPySpace <:+ l := List.dropWhile_suffix isPySpace
    obtain ⟨pre, hpre⟩ := hsuf
    have h1 : faMarker.isPrefixOf ((l.dropWhile isPySpace).map Char.toLower) = true := by
      rw [← hc, List.map_take]
      exact List.isPrefixOf_iff_prefix.mpr (List.take_prefix _ _)
    have h3 : l.map Char.toLower =
        pre.map Char.toLower ++ (l.dropWhile isPySpace).map Char.toLower := by
      rw [← List.map_append, hpre]
    rw [h3]
    exact listContainsSub_append_left _ (listContainsSub_of_isPrefixOf h1)
  · rw [if_neg hc] at h
    exact absurd h (by simp)

theorem faScanGo_some_contains :
    ∀ (n : Nat) (l g : List Char), faScanGo n l = some g →
      listContainsSub faMarker (l.map Char.toLower) = true := by
  intro n
  induction n with
  | zero =>
    intro l g h
    cases l with
    | nil => simp [faScanGo] at h
    | cons c rest => simp [faScanGo] at h
  | succ k ih =>
    intro l g h
    cases l with
    | nil => simp [faScanGo] at h
    | cons c rest =>
      simp only [faScanGo] at h
      cases hft : faTry (c :: rest) with
      | some g2 => exact faTry_some_contains hft
      | none =>
        rw [hft] at h
        cases hsf : splitFirst (['\n'] : List Char) (c :: rest) with
        | none => rw [hsf] at h; simp at h
        | some pp =>
          obtain ⟨pre, post⟩ := pp
          rw [hsf] at h
          simp only at h
          have hsub := ih post g h
          have heq := splitFirst_eq_append hsf
          rw [heq, List.map_append, List.map_append]
          exact listContainsSub_append_left _ (listContainsSub_append_left _ hsub)

theorem faScan_some_contains {l g : List Char} (h : faScan l = some g) :
    listContainsSub faMarker (l.map Char.toLower) = true :=
  faScanGo_some_contains l.length l g h

/-! ### C3 — final-answer precedence over code blocks -/

/-- C3 counterexample: in this response the exact-case final-answer
substring occurs nowhere outside the fenced regions (first conjunct) and a
python fence is present (second conjunct), yet final-answer extraction
succeeds (third conjunct) because the search is case-insensitive and a
lower-case final-answer line stands outside the fence — so the loop would
terminate instead of executing the code, contradicting the claim as
stated. -/
theorem C3_counterexample :
    listContainsSub (("Final Answer:").toList)
        (stripFences (("```python\nprint(1)\n```\nfinal answer: 42").toList)) = false ∧
    extract_code ("```python\nprint(1)\n```\nfinal answer: 42") = some ("print(1)") ∧
    ¬ extract_final_answer ("```python\nprint(1)\n```\nfinal answer: 42") = none ∧
    extract_final_answer ("```python\nprint(1)\n```\nfinal answer: 42") = some ("42") := by
  refine ⟨by decide, by decide, by decide, by decide⟩

/-- C3 amended: for every response in which no case-insensitive occurrence
of the final-answer marker survives outside fenced code regions,
final-answer extraction returns not-found; the loop checks final-answer
extraction before code and therefore, when code extraction yields a
non-empty block, the iteration takes the execute branch, appending the
observation and continuing, rather than terminating. -/
theorem C3_final_answer_precedence :
    ∀ text : String,
      listContainsSub faMarker ((stripFences text.toList).map Char.toLower) = false →
      extract_final_answer text = none ∧
      (∀ (llm : List Message → String) (pyExec : PyExec) (n : Nat) (hist : List Message)
          (sb : Sandbox) (code : String),
          llm hist = text → extract_code text = some code → ¬ code = "" →
          runLoop llm pyExec (n + 1) hist sb =
            (let e := Sandbox.executeWith pyExec sb code
             let r := runLoop llm pyExec n
               ((hist ++ [⟨Role.assistant, text⟩]) ++ [⟨Role.user, "Observation:\n" ++ e.1⟩]) e.2.1
             ⟨r.answer, r.llmCalls + 1, r.spawned + e.2.2, r.history⟩)) := by
  intro text hcontains
  have hfa : extract_final_answer text = none := by
    cases hsc : faScan (stripFences text.toList) with
    | none => rw [extract_final_answer, hsc]; rfl
    | some g =>
      exfalso
      rw [faScan_some_contains hsc] at hcontains
      exact absurd hcontains (by decide)
  refine ⟨hfa, ?_⟩
  intro llm pyExec n hist sb code hllm hcode hne
  simp only [runLoop, hllm, hfa, hcode, if_neg hne]

/-- Witness for C3: a response that is one python block and nothing else
has no final answer, and the loop takes the execute branch on it. -/
theorem C3_witness :
    extract_final_answer ("```python\nx = 1\n```") = none ∧
    runLoop (fun _ => "```python\nx = 1\n```") trivial_pyExec 1 [] ⟨8000, []⟩ =
      (let e := Sandbox.executeWith trivial_pyExec ⟨8000, []⟩ ("x = 1")
       let r := runLoop (fun _ => "```python\nx = 1\n```") trivial_pyExec 0
         (([] ++ [⟨Role.assistant, "```python\nx = 1\n```"⟩]) ++
           [⟨Role.user, "Observation:\n" ++ e.1⟩]) e.2.1
       ⟨r.answer, r.llmCalls + 1, r.spawned + e.2.2, r.history⟩) :=
  ⟨(C3_final_answer_precedence ("```python\nx = 1\n```") (by decide)).1,
   (C3_final_answer_precedence ("```python\nx = 1\n```") (by decide)).2
     (fun _ => "```python\nx = 1\n```") trivial_pyExec 0 [] ⟨8000, []⟩ ("x = 1")
     rfl (by decide) (by decide)⟩

/-! ### Lemmas for the final-answer edge cases -/

theorem dropWhile_replicate_newline (k : Nat) :
    (List.replicate k '\n').dropWhile isPySpace = [] := by
  induction k with
  | zero => rfl
  | succ j ih =>
    rw [List.replicate_succ, List.dropWhile_cons, if_pos (by decide)]
    exact ih

theorem all_replicate_newline (k : Nat) :
    (List.replicate k '\n').all (fun c => c == '\n') = true := by
  induction k with
  | zero => rfl
  | succ j ih =>
    rw [List.replicate_succ]
    simp

theorem tailMatch_replicate_newline (k : Nat) :
    tailMatch (List.replicate k '\n') = none := by
  simp only [tailMatch, dropWhile_replicate_newline, List.isEmpty_nil, if_true,
    all_replicate_newline]

theorem faScanGo_replicate_newline :
    ∀ n k : Nat, faScanGo n (List.replicate k '\n') = none := by
  intro n
  induction n with
  | zero =>
    intro k
    cases k with
    | zero => rfl
    | succ j => rfl
  | succ m ih =>
    intro k
    cases k with
    | zero => rfl
    | succ j =>
      rw [List.replicate_succ]
      have hft : faTry ('\n' :: List.replicate j '\n') = none := by
        simp only [faTry]
        have h1 : ('\n' :: List.replicate j '\n').dropWhile isPySpace = [] := by
          have h2 := dropWhile_replicate_newline (j + 1)
          rwa [List.replicate_succ] at h2
        rw [h1, if_neg (by decide)]
      have hsf : splitFirst (['\n'] : List Char) ('\n' :: List.replicate j '\n') =
          some ([], List.replicate j '\n') := by
        rw [splitFirst, if_pos (by simp [List.isPrefixOf])]
        rfl
      simp only [faScanGo, hft, hsf]
      exact ih j

theorem stripFencesGo_no_btick :
    ∀ (n : Nat) (l : List Char), (∀ c ∈ l, ¬ c = btick) → stripFencesGo n l = l := by
  intro n
  induction n with
  | zero =>
    intro l _
    cases l with
    | nil => rfl
    | cons c rest => rfl
  | succ m ih =>
    intro l h
    cases l with
    | nil => rfl
    | cons c rest =>
      have hc : ¬ c = btick := h c (by simp)
      have hbc : (btick == c) = false := by
        simp only [beq_eq_false_iff_ne, ne_eq]
        exact fun hh => hc hh.symm
      have hfp : fence.isPrefixOf (c :: rest) = false := by
        rw [show fence = btick :: (btick :: (btick :: [])) from rfl]
        simp [List.isPrefixOf, hbc]
      rw [stripFencesGo, if_neg (by simp [hfp])]
      rw [ih rest (fun x hx => h x (by simp [hx]))]

theorem stripFences_no_btick (l : List Char) (h : ∀ c ∈ l, ¬ c = btick) :
    stripFences l = l := stripFencesGo_no_btick l.length l h

/-- At a line start whose visible text begins with the exact marker, the
attempt reduces to the tail matcher on what follows the colon. -/
theorem faTry_FA (rest : List Char) :
    faTry ('F' :: (("inal Answer:").toList ++ rest)) = tailMatch rest := rfl

theorem splitFirst_newline_prepend :
    ∀ (l₁ rest : List Char), (∀ c ∈ l₁, ¬ c = '\n') →
      splitFirst (['\n'] : List Char) (l₁ ++ rest) =
        match splitFirst (['\n'] : List Char) rest with
        | some (pre, post) => some (l₁ ++ pre, post)
        | none => none := by
  intro l₁
  induction l₁ with
  | nil =>
    intro rest _
    cases hsf : splitFirst (['\n'] : List Char) rest with
    | none => simpa using hsf
    | some pp =>
      obtain ⟨pre, post⟩ := pp
      simpa using hsf
  | cons c cs ih =>
    intro rest h
    have hc : ¬ c = '\n' := h c (by simp)
    have hbc : ('\n' == c) = false := by
      simp only [beq_eq_false_iff_ne, ne_eq]
      exact fun hh => hc hh.symm
    have hp : (['\n'] : List Char).isPrefixOf (c :: (cs ++ rest)) = false := by
      simp [List.isPrefixOf, hbc]
    rw [List.cons_append, splitFirst, if_neg (by simp [hp])]
    rw [ih rest (fun x hx => h x (by simp [hx]))]
    cases hsf : splitFirst (['\n'] : List Char) rest with
    | none => simp
    | some pp =>
      obtain ⟨pre, post⟩ := pp
      simp

/-- The final-answer scan over the exact marker followed only by newlines
finds nothing, whatever the (positive) fuel. -/
theorem faScanGo_FA_newlines (m k : Nat) :
    faScanGo (Nat.succ m) ('F' :: (("inal Answer:").toList ++ List.replicate k '\n')) = none := by
  simp only [faScanGo, faTry_FA, tailMatch_replicate_newline]
  have hpre : splitFirst (['\n'] : List Char)
      (('F' :: ("inal Answer:").toList) ++ List.replicate k '\n') =
        match splitFirst (['\n'] : List Char) (List.replicate k '\n') with
        | some (pre, post) => some (('F' :: ("inal Answer:").toList) ++ pre, post)
        | none => none :=
    splitFirst_newline_prepend ('F' :: ("inal Answer:").toList) (List.replicate k '\n')
      (by decide)
  rw [show ('F' :: (("inal Answer:").toList ++ List.replicate k '\n'))
        = ('F' :: ("inal Answer:").toList) ++ List.replicate k '\n' from rfl, hpre]
  cases k with
  | zero => rfl
  | succ j =>
    have hsf : splitFirst (['\n'] : List Char) (List.replicate (j + 1) '\n') =
        some ([], List.replicate j '\n') := by
      rw [List.replicate_succ, splitFirst, if_pos (by simp [List.isPrefixOf])]
      rfl
    rw [hsf]
    simp only
    exact faScanGo_replicate_newline m j

/-! ### C10 — final-answer lines with nothing after the colon -/

/-- C10 counterexample: a response whose first line is the marker with no
characters after the colon, followed by a non-empty line, IS recognized —
the whitespace matcher after the colon crosses the newline and extraction
returns the following text — contradicting the claim that extraction
returns not-found there. -/
theorem C10_counterexample :
    extract_final_answer ("Final Answer:\nhello") = some ("hello") ∧
    ¬ extract_final_answer ("Final Answer:\nhello") = none := by
  refine ⟨by decide, by decide⟩

/-- C10 amended: a marker line with nothing after the colon is unrecognized
exactly when nothing but newlines follows it in the response (first
conjunct); when a non-newline character follows — even on a later line —
the match crosses the line break and yields that later text (second
conjunct); a marker line followed only by whitespace on the same line is
recognized and yields the empty string (third conjunct), which the
orchestrator immediately returns as the answer of the invocation (fourth
conjunct). -/
theorem C10_final_answer_edge_cases :
    (∀ k : Nat,
        extract_final_answer
          (String.mk (("Final Answer:").toList ++ List.replicate k '\n')) = none) ∧
    extract_final_answer ("Final Answer:\nhello") = some ("hello") ∧
    extract_final_answer ("Final Answer:   ") = some ("") ∧
    (∀ (llm : List Message → String) (pyExec : PyExec) (n : Nat) (hist : List Message)
        (sb : Sandbox), llm hist = "Final Answer:   " →
        runLoop llm pyExec (n + 1) hist sb =
          ⟨"", 1, 0, hist ++ [⟨Role.assistant, "Final Answer:   "⟩]⟩) := by
  refine ⟨?_, by decide, by decide, ?_⟩
  · intro k
    rw [extract_final_answer]
    have htl : (String.mk (("Final Answer:").toList ++ List.replicate k '\n')).toList
        = ("Final Answer:").toList ++ List.replicate k '\n' := rfl
    rw [htl]
    have hsf : stripFences (("Final Answer:").toList ++ List.replicate k '\n')
        = ("Final Answer:").toList ++ List.replicate k '\n' := by
      apply stripFences_no_btick
      intro c hc
      have hall : ∀ c ∈ ("Final Answer:").toList, ¬ c = btick := by decide
      rcases List.mem_append.mp hc with h | h
      · exact hall c h
      · rw [List.eq_of_mem_replicate h]; decide
    rw [hsf, faScan]
    have hlen : (("Final Answer:").toList ++ List.replicate k '\n').length
        = Nat.succ (12 + k) := by
      simp [List.length_append]
      omega
    rw [hlen]
    rw [show (("Final Answer:").toList ++ List.replicate k '\n')
          = 'F' :: (("inal Answer:").toList ++ List.replicate k '\n') from rfl]
    rw [faScanGo_FA_newlines (12 + k) k]
    rfl
  · intro llm pyExec n hist sb hllm
    have h3 : extract_final_answer ("Final Answer:   ") = some ("") := by decide
    simp only [runLoop, hllm, h3]

/-- Witness for C10 at concrete inputs: the marker followed by two
newlines is unrecognized, and a loop whose model answers the
whitespace-tailed marker line returns the empty answer at once. -/
theorem C10_witness :
    extract_final_answer (String.mk (("Final Answer:").toList ++ List.replicate 2 '\n')) = none ∧
    runLoop llm_ws trivial_pyExec 1 [] ⟨8000, []⟩ =
      ⟨"", 1, 0, [] ++ [⟨Role.assistant, "Final Answer:   "⟩]⟩ :=
  ⟨C10_final_answer_edge_cases.1 2,
   C10_final_answer_edge_cases.2.2.2 llm_ws trivial_pyExec 0 [] ⟨8000, []⟩ rfl⟩

/-! ### Lemmas about the iteration loop -/

theorem runLoop_llmCalls_le (llm : List Message → String) (pyExec : PyExec) :
    ∀ (n : Nat) (hist : List Message) (sb : Sandbox),
      (runLoop llm pyExec n hist sb).llmCalls ≤ n := by
  intro n
  induction n with
  | zero => intro hist sb; exact Nat.le_refl 0
  | succ n ih =>
    intro hist sb
    simp only [runLoop]
    cases hfa : extract_final_answer (llm hist) with
    | some a => simp
    | none =>
      simp only
      cases hc : extract_code (llm hist) with
      | some code =>
        simp only
        by_cases hne : code = ""
        · rw [if_pos hne]
          exact Nat.add_le_add_right (ih _ _) 1
        · rw [if_neg hne]
          exact Nat.add_le_add_right (ih _ _) 1
      | none =>
        exact Nat.add_le_add_right (ih _ _) 1

theorem runLoop_answer_cases (llm : List Message → String) (pyExec : PyExec) :
    ∀ (n : Nat) (hist : List Message) (sb : Sandbox),
      (runLoop llm pyExec n hist sb).answer = iteration_sentinel ∨
      ∃ h2 : List Message,
        extract_final_answer (llm h2) = some ((runLoop llm pyExec n hist sb).answer) := by
  intro n
  induction n with
  | zero => intro hist sb; left; rfl
  | succ n ih =>
    intro hist sb
    simp only [runLoop]
    cases hfa : extract_final_answer (llm hist) with
    | some a =>
      right
      exact ⟨hist, by simp [hfa]⟩
    | none =>
      simp only
      cases hc : extract_code (llm hist) with
      | some code =>
        simp only
        by_cases hne : code = ""
        · rw [if_pos hne]; simpa using ih _ _
        · rw [if_neg hne]; simpa using ih _ _
      | none => simpa using ih _ _

/-! ### C8 — iteration budgeting and loop exits -/

/-- C8: one invocation makes at most maxIterations model calls (stated for
the loop and for the whole invocation); a response whose answer extraction
succeeds makes the loop return that answer immediately; the only answers
the loop can return are the iteration sentinel or an extracted final
answer, so answer extraction is the sole success exit; an exhausted budget
returns the iteration sentinel; and a response with neither code nor final
answer appends the fixed nudge message and continues the loop. -/
theorem C8_iteration_budget :
    (∀ (llm : List Message → String) (pyExec : PyExec) (n : Nat) (hist : List Message)
        (sb : Sandbox), (runLoop llm pyExec n hist sb).llmCalls ≤ n) ∧
    (∀ (cfg : RLMConfig) (llm : List Message → String) (pyExec : PyExec) (fuel : Nat)
        (prompt : String) (depth : Nat) (rp : Option String),
        (completionGo cfg llm pyExec fuel prompt depth rp).llmCalls ≤ cfg.maxIterations) ∧
    (∀ (llm : List Message → String) (pyExec : PyExec) (n : Nat) (hist : List Message)
        (sb : Sandbox) (a : String), extract_final_answer (llm hist) = some a →
        runLoop llm pyExec (n + 1) hist sb = ⟨a, 1, 0, hist ++ [⟨Role.assistant, llm hist⟩]⟩) ∧
    (∀ (llm : List Message → String) (pyExec : PyExec) (n : Nat) (hist : List Message)
        (sb : Sandbox),
        (runLoop llm pyExec n hist sb).answer = iteration_sentinel ∨
        ∃ h2 : List Message,
          extract_final_answer (llm h2) = some ((runLoop llm pyExec n hist sb).answer)) ∧
    (∀ (llm : List Message → String) (pyExec : PyExec) (hist : List Message) (sb : Sandbox),
        runLoop llm pyExec 0 hist sb = ⟨iteration_sentinel, 0, 0, hist⟩) ∧
    (∀ (llm : List Message → String) (pyExec : PyExec) (n : Nat) (hist : List Message)
        (sb : Sandbox), extract_final_answer (llm hist) = none → extract_code (llm hist) = none →
        runLoop llm pyExec (n + 1) hist sb =
          (let r := runLoop llm pyExec n
            ((hist ++ [⟨Role.assistant, llm hist⟩]) ++ [⟨Role.user, nudge_message⟩]) sb
           ⟨r.answer, r.llmCalls + 1, r.spawned, r.history⟩)) := by
  refine ⟨runLoop_llmCalls_le, ?_, ?_, runLoop_answer_cases, ?_, ?_⟩
  · intro cfg llm pyExec fuel prompt depth rp
    cases fuel with
    | zero =>
      rw [completionGo]
      by_cases hd : cfg.maxDepth < depth
      · rw [if_pos hd]; exact Nat.zero_le _
      · rw [if_neg hd]; exact Nat.zero_le _
    | succ f =>
      rw [completionGo]
      by_cases hd : cfg.maxDepth < depth
      · rw [if_pos hd]; exact Nat.zero_le _
      · rw [if_neg hd]
        exact runLoop_llmCalls_le llm pyExec cfg.maxIterations _ _
  · intro llm pyExec n hist sb a hfa
    simp only [runLoop, hfa]
  · intro llm pyExec hist sb
    rfl
  · intro llm pyExec n hist sb hfa hc
    simp only [runLoop, hfa, hc]

/-- Witness for C8 at concrete oracles. -/
theorem C8_witness :
    (runLoop trivial_llm trivial_pyExec 3 [] ⟨8000, []⟩).llmCalls ≤ 3 ∧
    (completionGo ⟨2, 3, none⟩ trivial_llm trivial_pyExec 4 ("t") 1 none).llmCalls ≤ 2 ∧
    runLoop llm_ws trivial_pyExec 1 [] ⟨8000, []⟩ =
      ⟨"", 1, 0, [] ++ [⟨Role.assistant, llm_ws []⟩]⟩ ∧
    runLoop trivial_llm trivial_pyExec 0 [] ⟨8000, []⟩ = ⟨iteration_sentinel, 0, 0, []⟩ ∧
    runLoop trivial_llm trivial_pyExec 1 [] ⟨8000, []⟩ =
      (let r := runLoop trivial_llm trivial_pyExec 0
        (([] ++ [⟨Role.assistant, trivial_llm []⟩]) ++ [⟨Role.user, nudge_message⟩]) ⟨8000, []⟩
       ⟨r.answer, r.llmCalls + 1, r.spawned, r.history⟩) :=
  ⟨C8_iteration_budget.1 trivial_llm trivial_pyExec 3 [] ⟨8000, []⟩,
   C8_iteration_budget.2.1 ⟨2, 3, none⟩ trivial_llm trivial_pyExec 4 ("t") 1 none,
   C8_iteration_budget.2.2.1 llm_ws trivial_pyExec 0 [] ⟨8000, []⟩ ("") (by decide),
   C8_iteration_budget.2.2.2.2.1 trivial_llm trivial_pyExec [] ⟨8000, []⟩,
   C8_iteration_budget.2.2.2.2.2 trivial_llm trivial_pyExec 0 [] ⟨8000, []⟩ (by decide) (by decide)⟩

/-! ### C2 — depth guard and depth-bounded delegation chain -/

theorem scenario_response_fa : extract_final_answer scenario_response = none := by decide

theorem scenario_response_code :
    extract_code scenario_response = some ("print(rlm_query(context))") := by decide

theorem append_newline_ne_empty (s : String) : ¬ (s ++ "\n" = "") := by
  intro h
  have h2 := congrArg String.length h
  rw [String.length_append] at h2
  rw [show ("\n" : String).length = 1 from rfl, show ("" : String).length = 0 from rfl] at h2
  omega

theorem scenario_runLoop (hook : String → String × Nat) (hist : List Message) (prompt : String) :
    runLoop scenario_llm scenario_pyExec 1 hist (freshInvocationSandbox hook prompt) =
      ⟨iteration_sentinel, 1, (hook ("subtask")).2,
       (hist ++ [⟨Role.assistant, scenario_response⟩]) ++
         [⟨Role.user, "Observation:\n" ++
           truncate_output 8000 ((hook ("subtask")).1 ++ "\n")⟩]⟩ := by
  have hexec : Sandbox.executeWith scenario_pyExec (freshInvocationSandbox hook prompt)
      ("print(rlm_query(context))") =
      (truncate_output 8000 ((hook ("subtask")).1 ++ "\n"),
       ⟨8000, (freshInvocationSandbox hook prompt).nspace⟩, (hook ("subtask")).2) := by
    have hpe : scenario_pyExec ("print(rlm_query(context))")
        (freshInvocationSandbox hook prompt).nspace =
        (ExecOutcome.normal ((hook ("subtask")).1 ++ "\n"),
         (freshInvocationSandbox hook prompt).nspace, (hook ("subtask")).2) := rfl
    rw [Sandbox.executeWith, hpe]
    dsimp only
    rw [if_neg (append_newline_ne_empty _)]
    rfl
  simp only [runLoop, scenario_llm, scenario_response_fa, scenario_response_code,
    if_neg (show ¬ (("print(rlm_query(context))" : String) = "") by decide), hexec]
  simp [Nat.zero_add]

/-- In the always-delegate scenario with maximum depth D, the invocation
count below depth d (with enough fuel) is exactly D + 1 - d: every level
up to D enters one invocation and delegates once, and the level above D is
cut off by the guard. -/
theorem scenario_invocations (D : Nat) :
    ∀ (f d : Nat) (prompt : String), d ≤ D + 1 → D + 2 ≤ f + d →
      (completionGo (scenario_cfg D) scenario_llm scenario_pyExec f prompt d none).invocations
        = D + 1 - d := by
  intro f
  induction f with
  | zero => intro d prompt h1 h2; omega
  | succ f ih =>
    intro d prompt h1 h2
    by_cases hd : D < d
    · rw [completionGo, if_pos (show (scenario_cfg D).maxDepth < d from hd)]
      show 0 = D + 1 - d
      omega
    · rw [completionGo, if_neg (show ¬ (scenario_cfg D).maxDepth < d from hd)]
      push_neg at hd
      show ((let hook : String → String × Nat := fun childPrompt =>
              let r := completionGo (scenario_cfg D) scenario_llm scenario_pyExec f
                childPrompt (d + 1) none
              (r.answer, r.invocations)
             let sb := freshInvocationSandbox hook prompt
             let r := runLoop scenario_llm scenario_pyExec (scenario_cfg D).maxIterations
               (initial_history (scenario_cfg D) d none) sb
             (⟨r.answer, r.llmCalls, true, r.spawned + 1, r.history⟩ : RunResult)).invocations)
          = D + 1 - d
      rw [show (scenario_cfg D).maxIterations = 1 from rfl]
      dsimp only
      rw [scenario_runLoop]
      show (completionGo (scenario_cfg D) scenario_llm scenario_pyExec f ("subtask")
        (d + 1) none).invocations + 1 = D + 1 - d
      rw [ih (d + 1) ("subtask") (by omega) (by omega)]
      omega

/-- C2: a call whose depth is above the maximum returns the depth sentinel
immediately — no model call, no sandbox built, no invocation entered —
whatever the fuel, the oracles, or the prompt (first conjunct); and a
script that unconditionally delegates through the hook (which always
recurses at depth + 1) produces, from depth 1 with maximum depth D,
exactly D nested invocations, the (D + 1)-st being short-circuited by the
guard to the sentinel with zero model calls at that level (second
conjunct). -/
theorem C2_depth_guard_and_chain :
    (∀ (cfg : RLMConfig) (llm : List Message → String) (pyExec : PyExec) (fuel : Nat)
        (prompt : String) (depth : Nat) (rp : Option String), cfg.maxDepth < depth →
        completionGo cfg llm pyExec fuel prompt depth rp =
          ⟨depth_sentinel cfg.maxDepth, 0, false, 0, []⟩) ∧
    (∀ (D : Nat) (prompt : String),
        (completionTop (scenario_cfg D) scenario_llm scenario_pyExec prompt none).invocations
          = D) := by
  constructor
  · intro cfg llm pyExec fuel prompt depth rp h
    cases fuel with
    | zero => rw [completionGo, if_pos h]
    | succ f => rw [completionGo, if_pos h]
  · intro D prompt
    have h := scenario_invocations D (D + 1) 1 prompt (by omega) (by omega)
    rw [completionTop, show (scenario_cfg D).maxDepth + 1 = D + 1 from rfl, h]
    omega

/-- Witness for C2: the guard fires at depth 5 with maximum depth 4, and
the always-delegate scenario with maximum depth 2 enters exactly two
invocations. -/
theorem C2_witness :
    completionGo ⟨10, 4, none⟩ trivial_llm trivial_pyExec 7 ("t") 5 none =
      ⟨depth_sentinel 4, 0, false, 0, []⟩ ∧
    (completionTop (scenario_cfg 2) scenario_llm scenario_pyExec ("task") none).invocations = 2 :=
  ⟨C2_depth_guard_and_chain.1 ⟨10, 4, none⟩ trivial_llm trivial_pyExec 7 ("t") 5 none
     (by decide),
   C2_depth_guard_and_chain.2 2 ("task")⟩

/-! ### C6 — payload confidentiality -/

set_option maxRecDepth 10000 in
/-- C6 counterexample: a depth-2 invocation whose model emits a script
printing the context payload receives the payload verbatim in its own
conversation history through the observation message — refuting the claim
that the payload never appears in a non-root history at any point of the
loop. -/
theorem C6_counterexample :
    ((completionGo ⟨1, 4, none⟩ echo_llm print_context_pyExec 3 ("SECRETPAYLOAD42") 2 none).history.any
      (fun m => listContainsSub (("SECRETPAYLOAD42").toList) m.content.toList)) = true := by
  decide

/-- C6 amended: for every non-root invocation the history-visible user
prompt is the fixed generic instruction and the initial history is exactly
the two fixed messages, so the payload occurs in the initial history only
if it is a substring of one of those fixed texts; the payload reaches the
invocation only through the context binding of its fresh sandbox.  Later
history entries — model replies and observations, such as the output of a
script printing context — can carry the payload (C6_counterexample), so
the guarantee is about what the orchestrator itself puts in history, not
about every point of the loop. -/
theorem C6_payload_confidentiality :
    ∀ (cfg : RLMConfig) (depth : Nat) (rp : Option String) (payload : String), 1 < depth →
      (direct_prompt cfg.rootPrompt depth rp = generic_instruction) ∧
      (initial_history cfg depth rp =
        [⟨Role.system, system_prompt⟩, ⟨Role.user, generic_instruction⟩]) ∧
      (listContainsSub payload.toList system_prompt.toList = false →
       listContainsSub payload.toList generic_instruction.toList = false →
       ∀ m ∈ initial_history cfg depth rp,
         listContainsSub payload.toList m.content.toList = false) ∧
      (∀ hook : String → String × Nat,
        nsLookup (freshInvocationSandbox hook payload).nspace ("context") =
          some (PyVal.pstr payload)) := by
  intro cfg depth rp payload hdepth
  have hdp : direct_prompt cfg.rootPrompt depth rp = generic_instruction := by
    rw [direct_prompt.eq_def, if_neg (by omega)]
  refine ⟨hdp, by rw [initial_history, hdp], ?_, ?_⟩
  · intro h1 h2 m hm
    rw [initial_history, hdp] at hm
    simp only [List.mem_cons, List.not_mem_nil, or_false] at hm
    rcases hm with rfl | rfl
    · exact h1
    · exact h2
  · intro hook
    rfl

set_option maxRecDepth 10000 in
/-- Witness for C6 at a concrete payload and configuration. -/
theorem C6_witness :
    direct_prompt (none : Option String) 2 none = generic_instruction ∧
    (∀ m ∈ initial_history ⟨1, 4, none⟩ 2 none,
      listContainsSub (("SECRETPAYLOAD42").toList) m.content.toList = false) ∧
    nsLookup (freshInvocationSandbox (fun s => (s, 0)) ("SECRETPAYLOAD42")).nspace ("context") =
      some (PyVal.pstr ("SECRETPAYLOAD42")) :=
  ⟨(C6_payload_confidentiality ⟨1, 4, none⟩ 2 none ("SECRETPAYLOAD42") (by decide)).1,
   (C6_payload_confidentiality ⟨1, 4, none⟩ 2 none ("SECRETPAYLOAD42") (by decide)).2.2.1
     (by decide) (by decide),
   (C6_payload_confidentiality ⟨1, 4, none⟩ 2 none ("SECRETPAYLOAD42") (by decide)).2.2.2
     (fun s => (s, 0))⟩

end RLMSpec
